import Mathlib

/-!
Shallow embedding of the task-management core of this repository
(variant `session2_model3`): the status state machine
(`app/models/task.py`), the dependency evaluator, the tag
validation/storage round-trip (`app/schemas/task.py` and the
`tags_list` property), and the router-level operations
(`app/routers/tasks.py`): create, single update, bulk update, delete.

Python strings are modelled as `List Char`; timestamps as `Nat`;
the database session as a list of task rows, with operations
returning the new row list together with an optional error
(mirroring "raise before mutate, rollback on error": on an error the
returned row list is the input one).
-/

namespace TaskApi

/-- `TaskStatus` enum from `app/models/task.py`. -/
inductive TaskStatus where
  | pending
  | in_progress
  | completed
  | cancelled
  | on_hold
deriving DecidableEq, Fintype

/-- `TaskPriority` enum from `app/models/task.py`. -/
inductive TaskPriority where
  | low
  | medium
  | high
  | critical
deriving DecidableEq, Fintype

/-- `Task.get_allowed_transitions` from `app/models/task.py`:
the per-state sets of the transition dictionary, as lists. -/
def get_allowed_transitions (s : TaskStatus) : List TaskStatus :=
  match s with
  | .pending => [.in_progress, .cancelled, .on_hold]
  | .in_progress => [.completed, .on_hold, .cancelled]
  | .on_hold => [.pending, .in_progress, .cancelled]
  | .completed => [.in_progress]
  | .cancelled => [.pending]

/-- `Task.can_transition_to` from `app/models/task.py`: membership of the
target in the allowed set for the current status. -/
def can_transition_to (current target : TaskStatus) : Bool :=
  decide (target ∈ get_allowed_transitions current)

/-- Python strings are modelled as lists of characters. -/
abbrev PyStr := List Char

/-- Python `str.strip()`: drop whitespace at both ends. -/
def pyStrip (s : PyStr) : PyStr :=
  ((s.dropWhile Char.isWhitespace).reverse.dropWhile Char.isWhitespace).reverse

/-- Python `str.split(',')`: split on every comma; always returns a
non-empty list of pieces. -/
def splitComma : PyStr → List PyStr
  | [] => [[]]
  | c :: rest =>
    if c = ',' then [] :: splitComma rest
    else
      match splitComma rest with
      | [] => [[c]]
      | p :: ps => (c :: p) :: ps

/-- The `tags_list` property getter of `app/models/task.py`: split the
stored comma-separated string, strip each piece, drop empty pieces;
`None` or the empty string yield `[]`. -/
def tags_list (tags : Option PyStr) : List PyStr :=
  match tags with
  | none => []
  | some s =>
    if s = [] then []
    else ((splitComma s).map pyStrip).filter (fun t => t ≠ [])

/-- Python `', '.join(...)`: concatenate the pieces with `", "` between
consecutive pieces. -/
def joinComma : List PyStr → PyStr
  | [] => []
  | [a] => a
  | a :: b :: t => a ++ ',' :: ' ' :: joinComma (b :: t)

/-- The `tags_list` property setter of `app/models/task.py`:
join with `", "` if the list is non-empty, else store `None`. -/
def tags_list_set (tags : List PyStr) : Option PyStr :=
  if tags = [] then none
  else some (joinComma tags)

instance {ε α : Type} [DecidableEq ε] [DecidableEq α] :
    DecidableEq (Except ε α) := fun a b =>
  match a, b with
  | .ok x, .ok y =>
    if h : x = y then isTrue (by rw [h])
    else isFalse (by intro hh; cases hh; exact h rfl)
  | .ok _, .error _ => isFalse (by intro hh; cases hh)
  | .error _, .ok _ => isFalse (by intro hh; cases hh)
  | .error x, .error y =>
    if h : x = y then isTrue (by rw [h])
    else isFalse (by intro hh; cases hh; exact h rfl)

/-- `validate_tags` of `TaskCreate` in `app/schemas/task.py`: `None`
becomes `[]`; otherwise strip each tag, drop empties, deduplicate
(Python `set`, modelled as `List.dedup`), and reject more than 20
unique tags. -/
def validate_tags (v : Option (List PyStr)) : Except PyStr (List PyStr) :=
  match v with
  | none => .ok []
  | some l =>
    let unique := (((l.map pyStrip).filter (fun t => t ≠ [])).dedup)
    if unique.length > 20 then
      .error "Maximum 20 unique tags allowed".toList
    else .ok unique

/-- Row of the `tasks` table together with its outgoing edges of the
`task_dependencies` association table (`deps` are the `child_id`s of
rows with this task as `parent_id`). -/
structure Task where
  id : Nat
  title : PyStr
  descr : Option PyStr
  status : TaskStatus
  priority : TaskPriority
  created_at : Nat
  updated_at : Nat
  completed_at : Option Nat
  due_date : Option Nat
  assigned_to : Option PyStr
  estimated_hours : Option Nat
  actual_hours : Option Nat
  tags : Option PyStr
  deps : List Nat
deriving DecidableEq

/-- The task table: the rows of the backing store. -/
abbrev TaskDB := List Task

/-- `db.query(Task).filter(Task.id == i).first()`. -/
def getTask (db : TaskDB) (i : Nat) : Option Task :=
  db.find? (fun t => t.id = i)

/-- The `dependencies` ORM relationship: the tasks the edge list
resolves to in the store. -/
def dependenciesOf (db : TaskDB) (t : Task) : List Task :=
  t.deps.filterMap (getTask db)

/-- `Task.get_blocking_dependencies`: every direct dependency whose
status is not COMPLETED. -/
def get_blocking_dependencies (db : TaskDB) (t : Task) : List Task :=
  (dependenciesOf db t).filter (fun d => d.status ≠ .completed)

/-- `Task.is_ready_to_start`: no blocking dependencies. -/
def is_ready_to_start (db : TaskDB) (t : Task) : Bool :=
  (get_blocking_dependencies db t).length = 0

/-- Error taxonomy surfaced by the router (the `HTTPException` kinds of
`app/routers/tasks.py`). -/
inductive Err where
  | notFound (id : Nat)
  | bulkNotFound
  | invalidTransition (id : Nat) (src tgt : TaskStatus)
  | dependencyNotFound
  | hasDependents (id count : Nat)
deriving DecidableEq

/-- `TaskUpdate` schema under `model_dump(exclude_unset=True)`:
`none` means the field was not supplied. -/
structure TaskUpdate where
  title : Option PyStr := none
  descr : Option PyStr := none
  status : Option TaskStatus := none
  priority : Option TaskPriority := none
  due_date : Option Nat := none
  assigned_to : Option PyStr := none
  estimated_hours : Option Nat := none
  actual_hours : Option Nat := none
  tags : Option (List PyStr) := none
deriving DecidableEq

/-- No field supplied: the `setattr` loop is empty, so SQLAlchemy's
`onupdate` refresh of `updated_at` does not fire. -/
def TaskUpdate.isEmptyUpd (u : TaskUpdate) : Bool :=
  u.title.isNone && u.descr.isNone && u.status.isNone && u.priority.isNone &&
  u.due_date.isNone && u.assigned_to.isNone && u.estimated_hours.isNone &&
  u.actual_hours.isNone && u.tags.isNone

/-- The field-application loop of `update_task` / `bulk_update_tasks`:
apply every supplied field to the row; supplied tags go through the
`tags_list` setter (already validated by the schema). -/
def applyFields (t : Task) (u : TaskUpdate) : Task :=
  { t with
    title := u.title.getD t.title
    descr := match u.descr with | some v => some v | none => t.descr
    status := u.status.getD t.status
    priority := u.priority.getD t.priority
    due_date := match u.due_date with | some v => some v | none => t.due_date
    assigned_to := match u.assigned_to with | some v => some v | none => t.assigned_to
    estimated_hours :=
      match u.estimated_hours with | some v => some v | none => t.estimated_hours
    actual_hours := match u.actual_hours with | some v => some v | none => t.actual_hours
    tags := match u.tags with | some l => tags_list_set l | none => t.tags }

/-- `update_task` of `app/routers/tasks.py`, the per-row part: the status
transition is validated before anything is touched; on success the
supplied fields are applied, then `completed_at` is set to now when the
new status is COMPLETED and cleared when it is anything else; a mutation
refreshes `updated_at` (SQLAlchemy `onupdate`). -/
def update_task_core (t : Task) (u : TaskUpdate) (now : Nat) : Except Err Task :=
  match u.status with
  | some s =>
    if can_transition_to t.status s then
      let t1 := applyFields t u
      let t2 := if s = .completed
        then { t1 with completed_at := some now }
        else { t1 with completed_at := none }
      .ok { t2 with updated_at := now }
    else .error (.invalidTransition t.id t.status s)
  | none =>
    if u.isEmptyUpd then .ok t
    else .ok { applyFields t u with updated_at := now }

/-- `PUT /tasks/{task_id}` at store level: not-found check, then
`update_task_core`; on any error the store is returned unchanged (the
raise happens before any mutation, and errors roll back). -/
def update_task (db : TaskDB) (i : Nat) (u : TaskUpdate) (now : Nat) :
    TaskDB × Option Err :=
  match getTask db i with
  | none => (db, some (.notFound i))
  | some t =>
    match update_task_core t u now with
    | .ok t2 => (db.map (fun x => if x.id = i then t2 else x), none)
    | .error e => (db, some e)

/-- The per-task mutation of `bulk_update_tasks`: apply the supplied
fields, then set `completed_at` to now when the new status is COMPLETED —
the bulk path has no branch that clears `completed_at`. -/
def bulk_apply (u : TaskUpdate) (now : Nat) (t : Task) : Task :=
  if u.isEmptyUpd then t
  else
    let t1 := applyFields t u
    let t2 := if u.status = some .completed
      then { t1 with completed_at := some now } else t1
    { t2 with updated_at := now }

/-- `POST /tasks/bulk-update` (`bulk_update_tasks`): select the rows with
the given ids; 404 when the counts mismatch; when a status is supplied,
check every selected task can transition to it — raising at the first
failure, before any row is mutated — then mutate every selected row. -/
def bulk_update_tasks (db : TaskDB) (ids : List Nat) (u : TaskUpdate) (now : Nat) :
    TaskDB × Option Err :=
  let tasks := db.filter (fun t => t.id ∈ ids)
  if tasks.length ≠ ids.length then (db, some .bulkNotFound)
  else
    match u.status with
    | some s =>
      match tasks.find? (fun t => ! can_transition_to t.status s) with
      | some bad => (db, some (.invalidTransition bad.id bad.status s))
      | none =>
        (db.map (fun x => if x.id ∈ ids then bulk_apply u now x else x), none)
    | none => (db.map (fun x => if x.id ∈ ids then bulk_apply u now x else x), none)

/-- `TaskCreate` schema after validation; `tags` is the output of
`validate_tags`, `status` defaults to PENDING and `priority` to MEDIUM. -/
structure TaskCreate where
  title : PyStr
  descr : Option PyStr := none
  status : TaskStatus := .pending
  priority : TaskPriority := .medium
  due_date : Option Nat := none
  assigned_to : Option PyStr := none
  estimated_hours : Option Nat := none
  tags : List PyStr := []
  dependency_ids : Option (List Nat) := none
deriving DecidableEq

/-- `POST /tasks/` (`create_task`): when a non-empty dependency id list
was supplied, the rows whose id is in the list are counted and the
request fails with the dependency-not-found error when that count
differs from the length of the supplied list (nothing is inserted);
otherwise the new row is inserted with its dependency edges. -/
def create_task (db : TaskDB) (tc : TaskCreate) (newId now : Nat) :
    TaskDB × Option Err :=
  let ids := tc.dependency_ids.getD []
  let row : Task :=
    { id := newId, title := tc.title, descr := tc.descr,
      status := tc.status, priority := tc.priority,
      created_at := now, updated_at := now, completed_at := none,
      due_date := tc.due_date, assigned_to := tc.assigned_to,
      estimated_hours := tc.estimated_hours, actual_hours := none,
      tags := tags_list_set tc.tags, deps := ids }
  if ids ≠ [] then
    let existing := db.filter (fun t => t.id ∈ ids)
    if existing.length ≠ ids.length then (db, some .dependencyNotFound)
    else (db ++ [row], none)
  else (db ++ [row], none)

/-- `DELETE /tasks/{task_id}` (`delete_task`): 404 when absent; count
the association rows pointing at the task (the SQL join yields one row
per dependent edge) and fail with the has-dependents error, carrying
that count, when it is positive; otherwise remove the row. -/
def delete_task (db : TaskDB) (i : Nat) : TaskDB × Option Err :=
  match getTask db i with
  | none => (db, some (.notFound i))
  | some _ =>
    let dependent_tasks := (db.map (fun t => t.deps.count i)).sum
    if dependent_tasks > 0 then (db, some (.hasDependents i dependent_tasks))
    else (db.eraseP (fun t => t.id = i), none)

/-- A fresh PENDING task row with the given id and dependency edges. -/
def pendingTask (i : Nat) (ds : List Nat) : Task :=
  { id := i, title := ['t'], descr := none, status := .pending,
    priority := .medium, created_at := 0, updated_at := 0,
    completed_at := none, due_date := none, assigned_to := none,
    estimated_hours := none, actual_hours := none, tags := none, deps := ds }

/-- A COMPLETED task row with a non-null completion timestamp. -/
def completedTask (i : Nat) : Task :=
  { pendingTask i [] with status := .completed, completed_at := some 5 }

/-- An update request supplying only a status. -/
def updStatus (s : TaskStatus) : TaskUpdate := { status := some s }

/-- A creation request referencing a missing dependency id. -/
def createMissingDep : TaskCreate := { title := ['x'], dependency_ids := some [2] }

/-- A creation request whose dependency id list repeats an existing id. -/
def createDupDep : TaskCreate := { title := ['x'], dependency_ids := some [1, 1] }

/-- A creation request with a single validated tag containing a comma. -/
def createCommaTag : TaskCreate := { title := ['x'], tags := [['a', ',', 'a']] }

end TaskApi

namespace TaskApi

/-- C2: `can_transition_to` agrees exactly with the section 4.1 table,
and every self-transition is rejected. -/
theorem can_transition_to_matches_table :
    (∀ c t : TaskStatus, can_transition_to c t = true ↔
      ((c = .pending ∧ (t = .in_progress ∨ t = .cancelled ∨ t = .on_hold)) ∨
       (c = .in_progress ∧ (t = .completed ∨ t = .on_hold ∨ t = .cancelled)) ∨
       (c = .on_hold ∧ (t = .pending ∨ t = .in_progress ∨ t = .cancelled)) ∨
       (c = .completed ∧ t = .in_progress) ∨
       (c = .cancelled ∧ t = .pending))) ∧
    (∀ s : TaskStatus, can_transition_to s s = false) := by
  decide

/-- C4: a task is ready to start iff every direct dependency (as resolved
through the store) has status COMPLETED; the right-hand side mentions only
the direct dependencies, so readiness is insensitive to the state of any
transitive dependency. -/
theorem is_ready_to_start_iff (db : TaskDB) (t : Task) :
    is_ready_to_start db t = true ↔
      ∀ d ∈ dependenciesOf db t, d.status = TaskStatus.completed := by
  unfold is_ready_to_start get_blocking_dependencies
  simp [List.length_eq_zero, List.filter_eq_nil_iff]

/-- C1: evaluating the code at the failing input — a bulk update legally
moving a COMPLETED task (with `completed_at = 5`) to IN_PROGRESS succeeds
but leaves `completed_at` non-null, because the bulk path never clears
it; the spec invariant `completed_at` non-null iff COMPLETED is broken. -/
theorem bulk_update_keeps_stale_completed_at :
    bulk_update_tasks [completedTask 1] [1] (updStatus .in_progress) 10 =
      ([{ completedTask 1 with status := .in_progress, updated_at := 10 }], none) ∧
    ({ completedTask 1 with
        status := TaskStatus.in_progress, updated_at := 10 }).status ≠
      TaskStatus.completed ∧
    ({ completedTask 1 with
        status := TaskStatus.in_progress, updated_at := 10 }).completed_at = some 5 := by
  decide

/-- C10: with the store holding exactly task 1, a creation request whose
dependency list is `[1, 1]` is rejected with the dependency-not-found
error and nothing is inserted, even though every referenced id resolves
to an existing task. -/
theorem create_task_rejects_duplicate_dep_ids :
    create_task [pendingTask 1 []] createDupDep 2 0 =
      ([pendingTask 1 []], some .dependencyNotFound) ∧
    ∀ i ∈ [1, 1], (getTask [pendingTask 1 []] i).isSome = true := by
  decide

/-- C8, counterexample: the validator accepts the single tag `"a,a"`
(one entry, no duplicates), creation succeeds, but the created task's
observable tag list — split at every comma by the getter — is
`["a", "a"]`, which has a duplicate entry. -/
theorem created_task_tags_can_duplicate :
    validate_tags (some [['a', ',', 'a']]) = .ok [['a', ',', 'a']] ∧
    (create_task [] createCommaTag 1 0).2 = none ∧
    ((create_task [] createCommaTag 1 0).1.map (fun t => tags_list t.tags)) =
      [[['a'], ['a']]] ∧
    ¬ ([['a'], ['a']] : List PyStr).Nodup := by
  decide

/-- C6: a single-task update whose requested status transition is
illegal fails with the invalid-transition error naming the task, and
the store — hence the task row — is returned completely unchanged. -/
theorem update_task_invalid_transition_unchanged
    (db : TaskDB) (i : Nat) (u : TaskUpdate) (now : Nat) (t : Task) (s : TaskStatus)
    (hget : getTask db i = some t)
    (hs : u.status = some s)
    (hcan : can_transition_to t.status s = false) :
    update_task db i u now = (db, some (.invalidTransition t.id t.status s)) := by
  unfold update_task
  rw [hget]
  unfold update_task_core
  rw [hs]
  simp [hcan]

/-- Witness for C6: task 1 is PENDING, PENDING → COMPLETED is illegal,
the update fails and the store is unchanged. -/
theorem update_task_invalid_transition_unchanged_witness :
    update_task [pendingTask 1 []] 1 (updStatus .completed) 9 =
      ([pendingTask 1 []],
        some (.invalidTransition 1 TaskStatus.pending TaskStatus.completed)) :=
  update_task_invalid_transition_unchanged [pendingTask 1 []] 1
    (updStatus .completed) 9 (pendingTask 1 []) .completed
    (by decide) (by decide) (by decide)

/-- C7: a successful single-task update carrying a status sets that
status; when the target is COMPLETED it sets `completed_at` to the
current time (non-null), and when it leaves COMPLETED for any other
state it clears `completed_at` to null. -/
theorem update_task_core_completed_at
    (t : Task) (u : TaskUpdate) (now : Nat) (s : TaskStatus) (t2 : Task)
    (hs : u.status = some s)
    (hok : update_task_core t u now = .ok t2) :
    t2.status = s ∧
    (s = TaskStatus.completed → t2.completed_at = some now) ∧
    (t.status = TaskStatus.completed → s ≠ TaskStatus.completed →
      t2.completed_at = none) := by
  simp only [update_task_core, hs] at hok
  by_cases hc : can_transition_to t.status s = true
  · rw [if_pos hc] at hok
    by_cases hsc : s = TaskStatus.completed
    · rw [if_pos hsc] at hok
      cases hok
      refine ⟨by simp [applyFields, hs], fun _ => rfl, fun _ hne => absurd hsc hne⟩
    · rw [if_neg hsc] at hok
      cases hok
      exact ⟨by simp [applyFields, hs], fun h => absurd h hsc, fun _ _ => rfl⟩
  · rw [if_neg hc] at hok
    cases hok

/-- Witness for C7: reopening COMPLETED task 1 to IN_PROGRESS through
the single-task path clears `completed_at`. -/
theorem update_task_core_completed_at_witness :
    ∃ t2, update_task_core (completedTask 1) (updStatus .in_progress) 9 = .ok t2 ∧
      t2.status = TaskStatus.in_progress ∧ t2.completed_at = none := by
  have h : update_task_core (completedTask 1) (updStatus .in_progress) 9 =
      .ok { completedTask 1 with
        status := .in_progress, completed_at := none, updated_at := 9 } := by decide
  exact ⟨_, h,
    (update_task_core_completed_at (completedTask 1) (updStatus .in_progress) 9
      .in_progress _ rfl h).1,
    (update_task_core_completed_at (completedTask 1) (updStatus .in_progress) 9
      .in_progress _ rfl h).2.2 (by decide) (by decide)⟩

/-- C3: when all selected ids resolve and some selected task cannot
legally transition to the requested status, the whole bulk update fails
with the invalid-transition error naming a selected task that fails the
check, and the store is returned unchanged — no task's status (or any
other field) is modified. -/
theorem bulk_update_all_or_nothing
    (db : TaskDB) (ids : List Nat) (u : TaskUpdate) (now : Nat) (s : TaskStatus)
    (hs : u.status = some s)
    (hlen : (db.filter (fun t => t.id ∈ ids)).length = ids.length)
    (hbad : ∃ t ∈ db.filter (fun t => t.id ∈ ids),
      can_transition_to t.status s = false) :
    ∃ bad ∈ db.filter (fun t => t.id ∈ ids),
      can_transition_to bad.status s = false ∧
      bulk_update_tasks db ids u now =
        (db, some (.invalidTransition bad.id bad.status s)) := by
  have hfind : ((db.filter (fun t => t.id ∈ ids)).find?
      (fun t => ! can_transition_to t.status s)).isSome := by
    rw [List.find?_isSome]
    obtain ⟨t, ht, hc⟩ := hbad
    exact ⟨t, ht, by simp [hc]⟩
  obtain ⟨bad, hbadeq⟩ := Option.isSome_iff_exists.mp hfind
  have hmem := List.mem_of_find?_eq_some hbadeq
  have hprop : can_transition_to bad.status s = false := by
    have := List.find?_some hbadeq
    simpa using this
  refine ⟨bad, hmem, hprop, ?_⟩
  simp only [bulk_update_tasks, hs]
  rw [if_neg (by simp [hlen])]
  rw [hbadeq]

/-- Witness for C3: two PENDING tasks bulk-updated to COMPLETED
(illegal from PENDING): the batch fails naming a failing task and both
rows are left untouched. -/
theorem bulk_update_all_or_nothing_witness :
    ∃ bad ∈ ([pendingTask 1 [], pendingTask 2 []] : TaskDB).filter
        (fun t => t.id ∈ [1, 2]),
      can_transition_to bad.status .completed = false ∧
      bulk_update_tasks [pendingTask 1 [], pendingTask 2 []] [1, 2]
          (updStatus .completed) 9 =
        ([pendingTask 1 [], pendingTask 2 []],
          some (.invalidTransition bad.id bad.status .completed)) :=
  bulk_update_all_or_nothing [pendingTask 1 [], pendingTask 2 []] [1, 2]
    (updStatus .completed) 9 .completed rfl (by decide)
    ⟨pendingTask 1 [], by decide, by decide⟩

/-- C9: when the store's ids are pairwise distinct and some supplied
dependency id resolves to no task, creation fails with the
dependency-not-found error and the store is unchanged: no task row and
no edge is created. -/
theorem create_task_missing_dep
    (db : TaskDB) (tc : TaskCreate) (newId now : Nat) (ids : List Nat) (i : Nat)
    (hids : tc.dependency_ids = some ids)
    (hmem : i ∈ ids)
    (hmissing : ∀ t ∈ db, t.id ≠ i)
    (hdbids : (db.map Task.id).Nodup) :
    create_task db tc newId now = (db, some .dependencyNotFound) := by
  have hne : ids ≠ [] := List.ne_nil_of_mem hmem
  have hsub : (db.filter (fun t => t.id ∈ ids)).Sublist db := List.filter_sublist db
  have hnodup : ((db.filter (fun t => t.id ∈ ids)).map Task.id).Nodup :=
    hdbids.sublist (hsub.map Task.id)
  have hsubset : ∀ x ∈ (db.filter (fun t => t.id ∈ ids)).map Task.id,
      x ∈ ids ∧ x ≠ i := by
    intro x hx
    obtain ⟨t, ht, rfl⟩ := List.mem_map.mp hx
    have htin := List.mem_of_mem_filter ht
    have hpred := List.of_mem_filter ht
    exact ⟨by simpa using hpred, hmissing t htin⟩
  have hlt : (db.filter (fun t => t.id ∈ ids)).length < ids.length := by
    have h1 : ((db.filter (fun t => t.id ∈ ids)).map Task.id).toFinset.card =
        (db.filter (fun t => t.id ∈ ids)).length := by
      rw [List.toFinset_card_of_nodup hnodup, List.length_map]
    have h2 : ((db.filter (fun t => t.id ∈ ids)).map Task.id).toFinset ⊆
        ids.toFinset.erase i := by
      intro x hx
      rw [List.mem_toFinset] at hx
      obtain ⟨hin, hne2⟩ := hsubset x hx
      exact Finset.mem_erase.mpr ⟨hne2, List.mem_toFinset.mpr hin⟩
    calc (db.filter (fun t => t.id ∈ ids)).length
        = ((db.filter (fun t => t.id ∈ ids)).map Task.id).toFinset.card := h1.symm
      _ ≤ (ids.toFinset.erase i).card := Finset.card_le_card h2
      _ < ids.toFinset.card := Finset.card_erase_lt_of_mem (List.mem_toFinset.mpr hmem)
      _ ≤ ids.length := ids.toFinset_card_le
  simp only [create_task, hids, Option.getD_some]
  rw [if_pos hne, if_pos (Nat.ne_of_lt hlt)]

/-- Witness for C9: the store holds only task 1; creating a task that
declares dependency id 2 fails with the dependency-not-found error and
inserts nothing. -/
theorem create_task_missing_dep_witness :
    create_task [pendingTask 1 []] createMissingDep 5 0 =
      ([pendingTask 1 []], some .dependencyNotFound) :=
  create_task_missing_dep [pendingTask 1 []] createMissingDep 5 0 [2] 2
    rfl (by decide) (by decide) (by decide)

/-- The SQL join of `delete_task` counts one row per dependent edge;
when every task's edge list has no duplicates this equals the number of
tasks listing `i` as a dependency. -/
theorem sum_count_eq_countP (i : Nat) :
    ∀ db : TaskDB, (∀ x ∈ db, x.deps.Nodup) →
      (db.map (fun t => t.deps.count i)).sum =
        (db.filter (fun x => i ∈ x.deps)).length := by
  intro db
  induction db with
  | nil => intro _; rfl
  | cons x xs ih =>
    intro h
    have hx := h x (List.mem_cons_self x xs)
    have hxs := fun y hy => h y (List.mem_cons_of_mem x hy)
    by_cases hmem : i ∈ x.deps
    · have hc : x.deps.count i = 1 := List.count_eq_one_of_mem hx hmem
      simp [List.filter_cons, hmem, hc, ih hxs, Nat.add_comm]
    · have hc : x.deps.count i = 0 := List.count_eq_zero_of_not_mem hmem
      simp [List.filter_cons, hmem, hc, ih hxs]

/-- After erasing the (unique) row with id `i`, looking up `i` finds
nothing. -/
theorem getTask_eraseP_eq_none (i : Nat) :
    ∀ db : TaskDB, (db.map Task.id).Nodup →
      getTask (db.eraseP (fun t => t.id = i)) i = none := by
  intro db
  induction db with
  | nil => intro _; rfl
  | cons x xs ih =>
    intro h
    have hids := (List.nodup_cons.mp h).2
    by_cases hx : x.id = i
    · rw [List.eraseP_cons_of_pos (by simp [hx])]
      apply List.find?_eq_none.mpr
      intro y hy
      have : x.id ∉ xs.map Task.id := (List.nodup_cons.mp h).1
      simp only [decide_eq_true_eq]
      intro hyi
      exact this (List.mem_map.mpr ⟨y, hy, by rw [hyi, hx]⟩)
    · rw [List.eraseP_cons_of_neg (by simp [hx])]
      unfold getTask
      rw [List.find?_cons_of_neg _ (by simp [hx])]
      exact ih hids

/-- C5: with an existing task `i` (distinct row ids, duplicate-free
edge lists, no self-dependency on `i`): deletion fails with the
has-dependents error carrying the number of tasks that list `i` as a
direct dependency if and only if at least one other task lists `i`;
with zero dependents it succeeds and removes the task. -/
theorem delete_task_dependents_spec
    (db : TaskDB) (i : Nat) (t : Task)
    (hget : getTask db i = some t)
    (hdeps : ∀ x ∈ db, x.deps.Nodup)
    (hself : ∀ x ∈ db, x.id = i → i ∉ x.deps)
    (hids : (db.map Task.id).Nodup) :
    (delete_task db i =
        (db, some (.hasDependents i ((db.filter (fun x => i ∈ x.deps)).length))) ↔
      ∃ x ∈ db, x.id ≠ i ∧ i ∈ x.deps) ∧
    ((¬ ∃ x ∈ db, x.id ≠ i ∧ i ∈ x.deps) →
      (delete_task db i).2 = none ∧ getTask (delete_task db i).1 i = none) := by
  have hsum := sum_count_eq_countP i db hdeps
  have hpos : 0 < (db.filter (fun x => i ∈ x.deps)).length ↔
      ∃ x ∈ db, x.id ≠ i ∧ i ∈ x.deps := by
    constructor
    · intro h
      have hnil : db.filter (fun x => i ∈ x.deps) ≠ [] :=
        List.ne_nil_of_length_pos h
      obtain ⟨x, hx⟩ := List.exists_mem_of_ne_nil _ hnil
      have hxdb := List.mem_of_mem_filter hx
      have hxdep : i ∈ x.deps := by simpa using List.of_mem_filter hx
      refine ⟨x, hxdb, ?_, hxdep⟩
      intro hxi
      exact hself x hxdb hxi hxdep
    · rintro ⟨x, hxdb, _, hxdep⟩
      have : x ∈ db.filter (fun x => i ∈ x.deps) :=
        List.mem_filter.mpr ⟨hxdb, by simpa⟩
      exact List.length_pos.mpr (List.ne_nil_of_mem this)
  simp only [delete_task, hget]
  by_cases hcase : ∃ x ∈ db, x.id ≠ i ∧ i ∈ x.deps
  · have hgt : 0 < (db.map (fun t => t.deps.count i)).sum := by
      rw [hsum]; exact hpos.mpr hcase
    rw [if_pos hgt]
    constructor
    · constructor
      · intro _; exact hcase
      · intro _; rw [hsum]
    · intro h; exact absurd hcase h
  · have hle : ¬ 0 < (db.map (fun t => t.deps.count i)).sum := by
      rw [hsum]; exact fun h => hcase (hpos.mp h)
    rw [if_neg hle]
    constructor
    · constructor
      · intro h
        exact absurd (congrArg Prod.snd h) (by simp)
      · intro h; exact absurd h hcase
    · intro _
      exact ⟨rfl, getTask_eraseP_eq_none i db hids⟩

/-- Witness for C5: task 2 depends on task 1, so deleting task 1 fails
with the has-dependents error carrying count 1 and the store is
unchanged. -/
theorem delete_task_dependents_spec_witness :
    delete_task [pendingTask 1 [], pendingTask 2 [1]] 1 =
      ([pendingTask 1 [], pendingTask 2 [1]],
        some (.hasDependents 1
          ((([pendingTask 1 [], pendingTask 2 [1]] : TaskDB).filter
            (fun x => 1 ∈ x.deps)).length))) :=
  (delete_task_dependents_spec [pendingTask 1 [], pendingTask 2 [1]] 1
      (pendingTask 1 []) (by decide) (by decide) (by decide) (by decide)).1.mpr
    ⟨pendingTask 2 [1], by decide, by decide, by decide⟩

/-- A prefix of a list that has no leading run of `p` also has none. -/
theorem dropWhile_eq_self_of_prefix (p : Char → Bool) :
    ∀ {l₁ l₂ : List Char}, l₁ <+: l₂ → l₂.dropWhile p = l₂ →
      l₁.dropWhile p = l₁ := by
  intro l₁ l₂ hpre h2
  cases l₁ with
  | nil => rfl
  | cons c t =>
    obtain ⟨r, hr⟩ := hpre
    subst hr
    have hc : p c = false := by
      by_cases hp : p c
      · exfalso
        rw [List.cons_append, List.dropWhile_cons_of_pos hp] at h2
        have hlen : (List.dropWhile p (t ++ r)).length ≤ (t ++ r).length :=
          (List.dropWhile_sublist p).length_le
        rw [h2] at hlen
        simp at hlen
      · simpa using hp
    rw [List.dropWhile_cons_of_neg (by simp [hc])]

/-- Python `strip` is idempotent. -/
theorem pyStrip_idem (s : PyStr) : pyStrip (pyStrip s) = pyStrip s := by
  have hps : ∀ x : PyStr,
      pyStrip x = List.rdropWhile Char.isWhitespace
        (x.dropWhile Char.isWhitespace) := fun _ => rfl
  rw [hps (pyStrip s), hps s]
  have ha : (s.dropWhile Char.isWhitespace).dropWhile Char.isWhitespace =
      s.dropWhile Char.isWhitespace := List.dropWhile_idempotent _ _
  have hb : (List.rdropWhile Char.isWhitespace
        (s.dropWhile Char.isWhitespace)).dropWhile Char.isWhitespace =
      List.rdropWhile Char.isWhitespace (s.dropWhile Char.isWhitespace) :=
    dropWhile_eq_self_of_prefix Char.isWhitespace (List.rdropWhile_prefix _ _) ha
  rw [hb]
  exact List.rdropWhile_idempotent _ _

/-- Python `strip` only removes characters. -/
theorem pyStrip_sublist (s : PyStr) : List.Sublist (pyStrip s) s := by
  have h1 : List.rdropWhile Char.isWhitespace
      (s.dropWhile Char.isWhitespace) <+: s.dropWhile Char.isWhitespace :=
    List.rdropWhile_prefix _ _
  have h2 : List.IsSuffix (s.dropWhile Char.isWhitespace) s :=
    List.dropWhile_suffix _
  exact h1.sublist.trans h2.sublist

/-- Stripping eats a leading blank. -/
theorem pyStrip_space_cons (s : PyStr) : pyStrip (' ' :: s) = pyStrip s := by
  unfold pyStrip
  rw [List.dropWhile_cons_of_pos (by decide)]

/-- `split` never returns an empty piece list. -/
theorem splitComma_ne_nil (s : PyStr) : splitComma s ≠ [] := by
  induction s with
  | nil => simp [splitComma]
  | cons c t ih =>
    by_cases h : c = ','
    · simp [splitComma, h]
    · simp only [splitComma, if_neg h]
      cases hsc : splitComma t with
      | nil => exact absurd hsc ih
      | cons p ps => simp

/-- Splitting a comma-free string returns it whole. -/
theorem splitComma_no_comma (s : PyStr) (h : (',' : Char) ∉ s) :
    splitComma s = [s] := by
  induction s with
  | nil => rfl
  | cons c t ih =>
    have hc : c ≠ ',' := by
      intro he
      exact h (by rw [he]; exact List.mem_cons_self ',' t)
    have ht : (',' : Char) ∉ t := fun hm => h (List.mem_cons_of_mem c hm)
    simp [splitComma, hc, ih ht]

/-- Splitting at the comma after a comma-free piece peels the piece off. -/
theorem splitComma_append_comma (xs ys : PyStr) (h : (',' : Char) ∉ xs) :
    splitComma (xs ++ ',' :: ys) = xs :: splitComma ys := by
  induction xs with
  | nil => simp [splitComma]
  | cons c t ih =>
    have hc : c ≠ ',' := by
      intro he
      exact h (by rw [he]; exact List.mem_cons_self ',' t)
    have ht : (',' : Char) ∉ t := fun hm => h (List.mem_cons_of_mem c hm)
    simp only [List.cons_append, splitComma, if_neg hc, List.append_eq]
    rw [ih ht]

/-- A leading blank before the split is erased by the per-piece strip. -/
theorem splitComma_space (z : PyStr) :
    (splitComma (' ' :: z)).map pyStrip = (splitComma z).map pyStrip := by
  have h : (' ' : Char) ≠ ',' := by decide
  cases hsc : splitComma z with
  | nil => exact absurd hsc (splitComma_ne_nil z)
  | cons p ps =>
    simp only [splitComma, if_neg h, hsc, List.map_cons]
    rw [pyStrip_space_cons]

/-- Joining a non-empty first piece yields a non-empty string. -/
theorem joinComma_ne_nil (a : PyStr) (rest : List PyStr) (ha : a ≠ []) :
    joinComma (a :: rest) ≠ [] := by
  cases rest with
  | nil => simpa [joinComma] using ha
  | cons b t => simp [joinComma]

/-- Splitting the `", "`-join of comma-free, non-empty, already-stripped
pieces recovers exactly the pieces. -/
theorem split_join : ∀ u : List PyStr,
    (∀ a ∈ u, (',' : Char) ∉ a) → (∀ a ∈ u, a ≠ []) →
    (∀ a ∈ u, pyStrip a = a) →
    ((splitComma (joinComma u)).map pyStrip).filter (fun t => t ≠ []) = u := by
  intro u
  induction u with
  | nil => intro _ _ _; rfl
  | cons a rest ih =>
    intro h1 h2 h3
    have ha1 := h1 a (List.mem_cons_self a rest)
    have ha2 := h2 a (List.mem_cons_self a rest)
    have ha3 := h3 a (List.mem_cons_self a rest)
    cases rest with
    | nil =>
      simp only [joinComma]
      rw [splitComma_no_comma a ha1]
      simp [ha3, ha2]
    | cons b t =>
      simp only [joinComma]
      rw [splitComma_append_comma a _ ha1, List.map_cons, ha3, splitComma_space]
      rw [List.filter_cons_of_pos (by simpa using ha2)]
      rw [ih (fun x hx => h1 x (List.mem_cons_of_mem a hx))
        (fun x hx => h2 x (List.mem_cons_of_mem a hx))
        (fun x hx => h3 x (List.mem_cons_of_mem a hx))]

/-- Round trip through the `tags_list` setter and getter for comma-free,
non-empty, stripped tag lists. -/
theorem tags_get_set (u : List PyStr)
    (h1 : ∀ a ∈ u, (',' : Char) ∉ a) (h2 : ∀ a ∈ u, a ≠ [])
    (h3 : ∀ a ∈ u, pyStrip a = a) :
    tags_list (tags_list_set u) = u := by
  cases u with
  | nil => rfl
  | cons a rest =>
    have hne : joinComma (a :: rest) ≠ [] :=
      joinComma_ne_nil a rest (h2 a (List.mem_cons_self a rest))
    rw [tags_list_set, if_neg (by simp)]
    simp only [tags_list, if_neg hne]
    exact split_join (a :: rest) h1 h2 h3

/-- C8 (amended): for every input list of tag strings accepted by
validation none of which contains a comma, the observable tag list
(setter then getter) has no duplicate entries and at most 20 entries. -/
theorem validated_tags_observable_nodup
    (l u : List PyStr)
    (hcomma : ∀ s ∈ l, (',' : Char) ∉ s)
    (hv : validate_tags (some l) = .ok u) :
    (tags_list (tags_list_set u)).Nodup ∧
    (tags_list (tags_list_set u)).length ≤ 20 := by
  simp only [validate_tags] at hv
  by_cases hlen : (((l.map pyStrip).filter (fun t => t ≠ [])).dedup).length > 20
  · rw [if_pos hlen] at hv
    cases hv
  · rw [if_neg hlen] at hv
    injection hv with hv
    subst hv
    have hprops : ∀ a ∈ ((l.map pyStrip).filter (fun t => t ≠ [])).dedup,
        ((',' : Char) ∉ a) ∧ a ≠ [] ∧ pyStrip a = a := by
      intro a ha
      have h' := List.mem_dedup.mp ha
      have hane : a ≠ [] := by simpa using List.of_mem_filter h'
      have hamem : a ∈ l.map pyStrip := List.mem_of_mem_filter h'
      obtain ⟨b, hb, rfl⟩ := List.mem_map.mp hamem
      exact ⟨fun hcm => hcomma b hb ((pyStrip_sublist b).subset hcm), hane,
        pyStrip_idem b⟩
    rw [tags_get_set _ (fun a ha => (hprops a ha).1)
      (fun a ha => (hprops a ha).2.1) (fun a ha => (hprops a ha).2.2)]
    exact ⟨List.nodup_dedup _, Nat.le_of_not_lt hlen⟩

/-- Witness for C8 (amended): the comma-free input `["a"]` passes
validation and its observable tag list is duplicate-free with at most
20 entries. -/
theorem validated_tags_observable_nodup_witness :
    validate_tags (some [['a']]) = .ok [['a']] ∧
    (tags_list (tags_list_set [['a']])).Nodup ∧
    (tags_list (tags_list_set [['a']])).length ≤ 20 :=
  ⟨by decide,
    validated_tags_observable_nodup [['a']] [['a']] (by decide) (by decide)⟩

end TaskApi
